import Mathlib

set_option maxRecDepth 100000

/-
  Verification development for the RadSysX viewer core.

  Shallow embedding of:
  - the volume-loadability decision (src/frontend/lib/utils/cornerstone3DInit.ts,
    `canLoadAsVolume`, and src/frontend/lib/services/cornerstone/volumeLoader.ts,
    `VolumeLoaderService.canLoadAsVolume`);
  - the file classifier and series builder (src/frontend/lib/services/cornerstoneService.ts,
    `determineFileFormat`, `verifyDicomFormat`, `createImageIdsFromFiles`,
    `processImageSeries`);
  - the engine service state machine (src/frontend/lib/services/cornerstoneService.ts,
    `CornerstoneService.initialize`, `retryInitialization`, `getRenderingEngine`,
    `releaseRenderingEngine`) together with `cleanupCornerstone3D`;
  - the viewport setup path of src/frontend/components/DicomViewer3D.tsx
    (`setupViewport`, `loadAsStack`);
  - the per-tool-group markup state manager of src/unnamed/part_004
    (`AnnotationManagerService`).

  Modelling conventions: JavaScript strings that are parsed or ordered
  (file names, content types, byte buffers) are lists of character codes
  (List Nat), so that every operation evaluates inside the kernel; strings
  used only as opaque tokens (image ids, tool-group ids, uids) stay String.
  Fallible awaited calls are oracles (Bool-valued fields); a thrown-and-caught
  exception is the oracle returning false. The cooperative event loop is an
  explicit interleaving of the atomic segments between suspension points.
-/

/-! ## Character-code string helpers (model of the JS string operations used) -/

/-- Character codes of a Lean string literal, used to write concrete JS strings. -/
def codesOf (s : String) : List Nat := s.data.map Char.toNat

/-- Model of JS String.prototype.toLowerCase restricted to ASCII letters. -/
def lowerCodes (l : List Nat) : List Nat :=
  l.map (fun c => if 65 ≤ c ∧ c ≤ 90 then c + 32 else c)

/-- Model of JS String.prototype.toUpperCase restricted to ASCII letters. -/
def upperCodes (l : List Nat) : List Nat :=
  l.map (fun c => if 97 ≤ c ∧ c ≤ 122 then c - 32 else c)

/-- Does the code list start with the pattern (JS String.prototype.startsWith)? -/
def startsWithCodes : List Nat → List Nat → Bool
  | [], _ => true
  | _ :: _, [] => false
  | p :: ps, c :: cs => p = c && startsWithCodes ps cs

/-- Does the code list end with the pattern (JS String.prototype.endsWith)? -/
def endsWithCodes (pat l : List Nat) : Bool :=
  startsWithCodes pat.reverse l.reverse

/-- Does the code list contain the pattern (JS String.prototype.includes)? -/
def containsCodes (pat : List Nat) : List Nat → Bool
  | [] => startsWithCodes pat []
  | c :: cs => startsWithCodes pat (c :: cs) || containsCodes pat cs

/-- Model of JS String.prototype.split on a single separator character. -/
def splitOnCode (sep : Nat) : List Nat → List (List Nat)
  | [] => [[]]
  | c :: cs =>
    let r := splitOnCode sep cs
    if c = sep then [] :: r
    else
      match r with
      | [] => [[c]]
      | h :: t => (c :: h) :: t

/-- Lexicographic comparison on code lists; the model of the total order
induced by the localeCompare comparator passed to Array.prototype.sort. -/
def lexLe : List Nat → List Nat → Bool
  | [], _ => true
  | _ :: _, [] => false
  | a :: as, b :: bs => if a < b then true else if b < a then false else lexLe as bs

/-- Propositional form of lexLe, used to state sortedness. -/
def lexLeP (a b : List Nat) : Prop := lexLe a b = true

/-! ## Volume-loadability decision engine -/

/-- Presence (JS truthiness) of the geometric metadata fields probed through
metaData.get for one image id. A field is true when the probe returns a
truthy value and false when it returns undefined. -/
structure ProbedMeta where
  imagePixelSpacing : Bool
  pixelSpacing : Bool
  imageOrientationPatient : Bool
  imagePositionPatient : Bool
  sliceThickness : Bool
deriving DecidableEq

/-- Environment for the decision engine: the metadata cache keyed by image id,
and whether imageLoader.loadAndCacheImage rejects for a given id. -/
structure MetaEnv where
  meta : String → ProbedMeta
  loadFails : String → Bool

/-- Embedding of canLoadAsVolume from src/frontend/lib/utils/cornerstone3DInit.ts
(lines 180-210): length gate, load-and-cache of the first id (a rejection is
caught and yields false), then presence of all four geometric fields. -/
def canLoadAsVolume (env : MetaEnv) (imageIds : List String) : Bool :=
  if imageIds.length < 3 then false
  else
    match imageIds with
    | [] => false
    | id0 :: _ =>
      if env.loadFails id0 then false
      else
        let m := env.meta id0
        ((m.imagePixelSpacing || m.pixelSpacing) && m.imageOrientationPatient
          && m.imagePositionPatient && m.sliceThickness)

/-- Embedding of VolumeLoaderService.canLoadAsVolume from
src/frontend/lib/services/cornerstone/volumeLoader.ts (lines 108-130): length
gate, then metaData.get for spacing, orientation and position only; note that
sliceThickness is not consulted in this implementation. -/
def vlsCanLoadAsVolume (env : MetaEnv) (imageIds : List String) : Bool :=
  if imageIds.length < 3 then false
  else
    match imageIds with
    | [] => false
    | id0 :: _ =>
      let m := env.meta id0
      if !(m.imagePixelSpacing || m.pixelSpacing) || !m.imageOrientationPatient
          || !m.imagePositionPatient then false
      else true

/-- Metadata environment in which every geometric field except sliceThickness
is present for every image id. -/
def thicknessFreeEnv : MetaEnv :=
  { meta := fun _ => ⟨true, true, true, true, false⟩
    loadFails := fun _ => false }

/-- Metadata environment in which every geometric field is present. -/
def fullMetaEnv : MetaEnv :=
  { meta := fun _ => ⟨true, true, true, true, true⟩
    loadFails := fun _ => false }

/-! ## File classifier and series builder -/

/-- An uploaded file: name, declared content type and raw bytes, all as
character/byte code lists. -/
structure RawFile where
  name : List Nat
  ctype : List Nat
  bytes : List Nat
deriving DecidableEq

/-- An image identifier. The source identifies the blob handle the wadouri
URL was created from; the scheme is always wadouri in this path. -/
structure ImageId where
  source : RawFile
deriving DecidableEq

/-- Identifier construction, modelling wadouri plus URL.createObjectURL(file). -/
def mkWadouriId (f : RawFile) : ImageId := ⟨f⟩

/-- Oracles for the fallible steps of classification: FileReader success for
the 132-byte header read, dicomParser success for the no-magic fallback, and
absence of a thrown error in the per-file metadata/analysis step of the
processing loop. -/
structure ClassifyOracle where
  headerReadOk : RawFile → Bool
  parseFallbackOk : RawFile → Bool
  perFileOk : RawFile → Bool

/-- Oracle under which every fallible classification step succeeds. -/
def oracleAllOk : ClassifyOracle := ⟨fun _ => true, fun _ => true, fun _ => true⟩

inductive FileFormat
  | dicom
  | nifti
  | png
  | jpg
  | unknown
  | dicomdir
deriving DecidableEq

inductive ViewerType
  | dicomViewer
  | imageViewer
  | videoViewer
deriving DecidableEq

/-- The DICM magic: bytes 128-131 decode to the ASCII string DICM. -/
def dicmMagic (bytes : List Nat) : Bool :=
  (bytes.drop 128).take 4 = codesOf "DICM"

/-- Embedding of verifyDicomFormat (cornerstoneService.ts lines 398-432):
reject under 132 bytes, read the 132-byte header (a read failure yields
false), accept on the DICM magic at offset 128, otherwise fall back to a
metadata parse attempt. -/
def verifyDicomFormat (o : ClassifyOracle) (f : RawFile) : Bool :=
  if f.bytes.length < 132 then false
  else if !o.headerReadOk f then false
  else if dicmMagic f.bytes then true
  else o.parseFallbackOk f

/-- The lowercased extension: file.name.split on dot, pop, toLowerCase. -/
def fileExtCodes (f : RawFile) : List Nat :=
  lowerCodes ((splitOnCode 46 f.name).getLastD [])

/-- Embedding of determineFileFormat (cornerstoneService.ts lines 363-396).
The DICOM verification runs only under the dcm-extension / dicom-content-type
guard; on verification failure control falls through to the later checks. -/
def determineFileFormat (o : ClassifyOracle) (f : RawFile) : FileFormat :=
  if (fileExtCodes f = codesOf "dcm" ∨ f.ctype = codesOf "application/dicom")
      ∧ verifyDicomFormat o f then .dicom
  else if fileExtCodes f = codesOf "nii" ∨ fileExtCodes f = codesOf "gz"
      ∨ endsWithCodes (codesOf ".nii.gz") (lowerCodes f.name) then .nifti
  else if fileExtCodes f = codesOf "png" ∨ f.ctype = codesOf "image/png" then .png
  else if fileExtCodes f = codesOf "jpg" ∨ fileExtCodes f = codesOf "jpeg"
      ∨ f.ctype = codesOf "image/jpeg" then .jpg
  else .unknown

/-- Is the file named DICOMDIR (file.name.toUpperCase equal to DICOMDIR or
ending in .DICOMDIR)? -/
def isDicomdirFile (f : RawFile) : Bool :=
  upperCodes f.name = codesOf "DICOMDIR"
    || endsWithCodes (codesOf ".DICOMDIR") (upperCodes f.name)

/-- Name-based DICOM detection used by createImageIdsFromFiles. -/
def isDcmNamed (f : RawFile) : Bool :=
  endsWithCodes (codesOf ".dcm") (lowerCodes f.name)
    || containsCodes (codesOf ".dcm") (lowerCodes f.name)
    || f.ctype = codesOf "application/dicom"

/-- Name/MIME-based raster detection used by createImageIdsFromFiles. -/
def isImageNamed (f : RawFile) : Bool :=
  startsWithCodes (codesOf "image/") f.ctype
    || endsWithCodes (codesOf ".png") (lowerCodes f.name)
    || endsWithCodes (codesOf ".jpg") (lowerCodes f.name)
    || endsWithCodes (codesOf ".jpeg") (lowerCodes f.name)

/-- The comparator order on files used by the series builder:
a.name.localeCompare(b.name), modelled as lexicographic order on name codes. -/
def fileLe (a b : RawFile) : Prop := lexLe a.name b.name = true

instance : DecidableRel fileLe := fun a b =>
  inferInstanceAs (Decidable (lexLe a.name b.name = true))

/-- Embedding of createImageIdsFromFiles (cornerstoneService.ts lines 622-686):
DICOMDIR first, then name/MIME-filtered DICOM files (re-sorted by name), then
raster files, then the all-files default. -/
def createImageIdsFromFiles (files : List RawFile) : List ImageId :=
  if files = [] then []
  else
    match files.find? isDicomdirFile with
    | some d =>
      mkWadouriId d :: (files.filter (fun g => g ≠ d)).map mkWadouriId
    | none =>
      let dicomFiles := files.filter isDcmNamed
      if dicomFiles ≠ [] then (List.insertionSort fileLe dicomFiles).map mkWadouriId
      else
        let imageFiles := files.filter isImageNamed
        if imageFiles ≠ [] then imageFiles.map mkWadouriId
        else files.map mkWadouriId

/-- One processed image of the series: the source file, its classified format
and its identifier. -/
structure ProcessedImage where
  file : RawFile
  format : FileFormat
  imageId : ImageId
deriving DecidableEq

/-- The assembled series (the fields the claims concern). -/
structure ImageSeries where
  images : List ProcessedImage
  format : FileFormat
  viewerType : ViewerType
deriving DecidableEq

inductive ProcessError
  | noFilesProvided
  | noValidImages
deriving DecidableEq

/-- The per-file loop of processImageSeries (lines 287-317): index i pairs
files[i] with allImageIds[i]; a missing id (index beyond the id list) skips
the file, and a thrown metadata/analysis error (perFileOk false) is caught
and skips the file. -/
def processLoop (o : ClassifyOracle) : List RawFile → List ImageId → List ProcessedImage
  | _, [] => []
  | [], _ => []
  | f :: fs, i :: is =>
    if o.perFileOk f then
      { file := f, format := determineFileFormat o f, imageId := i } :: processLoop o fs is
    else processLoop o fs is

/-- Increment of the per-format counter map, in first-occurrence order
(JS object key insertion order). -/
def formatCountsAdd (fmt : FileFormat) : List (FileFormat × Nat) → List (FileFormat × Nat)
  | [] => [(fmt, 1)]
  | (g, n) :: rest =>
    if g = fmt then (g, n + 1) :: rest else (g, n) :: formatCountsAdd fmt rest

/-- The reduce building formatCounts over the valid images. -/
def formatCounts (l : List ProcessedImage) : List (FileFormat × Nat) :=
  l.foldl (fun acc img => formatCountsAdd img.format acc) []

/-- First entry of the count map sorted by descending count with a stable
sort: the first-encountered format of maximal count. -/
def primaryFormat : List (FileFormat × Nat) → FileFormat
  | [] => .unknown
  | c :: rest => (rest.foldl (fun best p => if best.2 < p.2 then p else best) c).1

/-- Embedding of processImageSeries (cornerstoneService.ts lines 228-355):
empty-input error, DICOMDIR special path, sort by name, id construction,
per-file processing loop, unknown-format filter, empty-valid error, and
series assembly with the dominant format. -/
def processImageSeries (o : ClassifyOracle) (files : List RawFile) :
    Except ProcessError ImageSeries :=
  if files = [] then .error .noFilesProvided
  else
    match files.find? isDicomdirFile with
    | some d =>
      let rest := files.filter (fun g => g ≠ d)
      let ids := createImageIdsFromFiles (d :: rest)
      let imgs := (List.zip (d :: rest) ids).map
        (fun p => { file := p.1, format := FileFormat.dicom, imageId := p.2 })
      .ok { images := imgs, format := .dicomdir, viewerType := .dicomViewer }
    | none =>
      let sorted := List.insertionSort fileLe files
      let ids := createImageIdsFromFiles sorted
      let processed := processLoop o sorted ids
      let validImages := processed.filter (fun img => img.format ≠ FileFormat.unknown)
      if validImages = [] then .error .noValidImages
      else
        let primary := primaryFormat (formatCounts validImages)
        let vt := if primary = FileFormat.dicom ∨ primary = FileFormat.dicomdir
          then ViewerType.dicomViewer else ViewerType.imageViewer
        .ok { images := validImages, format := primary, viewerType := vt }

/-- A 132-byte file carrying the DICM magic at offset 128 but named with a
non-DICOM extension and no declared content type. -/
def dicmStealthFile : RawFile :=
  { name := codesOf "scan.bin", ctype := [], bytes := List.replicate 128 0 ++ codesOf "DICM" }

/-- A well-formed DICOM byte buffer (preamble then DICM). -/
def dicmBytes : List Nat := List.replicate 128 0 ++ codesOf "DICM"

/-- A properly named DICOM file with the magic. -/
def dcmFileA : RawFile := { name := codesOf "a.dcm", ctype := [], bytes := dicmBytes }

def dcmFileB : RawFile := { name := codesOf "b.dcm", ctype := [], bytes := dicmBytes }

def dcmFileC : RawFile := { name := codesOf "c.dcm", ctype := [], bytes := dicmBytes }

/-- A text file that classifies as unknown. -/
def txtFile : RawFile := { name := codesOf "notes.txt", ctype := [], bytes := codesOf "hello" }

/-- A file named DICOMDIR (no extension, no content type). -/
def dicomdirOnlyFile : RawFile := { name := codesOf "DICOMDIR", ctype := [], bytes := dicmBytes }

/-- Three DICOM files given out of name order. -/
def demoFiles : List RawFile := [dcmFileB, dcmFileA, dcmFileC]

/-! ## Engine service: bounded-retry bootstrap (CornerstoneService.initialize) -/

/-- The retry bound maxRetries of CornerstoneService. -/
def maxRetries : Nat := 3

/-- The mutable fields of CornerstoneService that the bootstrap path touches:
initialized, initializing, initPromise (tracked as presence), retryCount and
initError (error values as numeric codes). -/
structure SvcState where
  isInit : Bool
  initializing : Bool
  hasInitPromise : Bool
  retryCount : Nat
  initError : Option Nat
deriving DecidableEq

/-- Observable outcome of one call to the initialize method. -/
inductive InitOutcome
  | resolvedNoop
  | failFast (err : Nat)
  | joinedInFlight
  | bootstrapOk
  | bootstrapFailed (err : Nat)
deriving DecidableEq

/-- Embedding of CornerstoneService.initialize (cornerstoneService.ts lines
31-66): return when initialized; fail fast with the stored error once
retryCount has reached maxRetries; join an in-flight promise; otherwise run
the bootstrap, whose success or failure is the oracle bootstrapSucceeds (a
failure stores newErr and bumps retryCount). -/
def initCall (s : SvcState) (bootstrapSucceeds : Bool) (newErr : Nat) :
    SvcState × InitOutcome :=
  if s.isInit then (s, .resolvedNoop)
  else if s.initError.isSome ∧ maxRetries ≤ s.retryCount then
    (s, .failFast (s.initError.getD 0))
  else if s.initializing ∧ s.hasInitPromise then (s, .joinedInFlight)
  else if bootstrapSucceeds then
    ({ isInit := true, initializing := false, hasInitPromise := true,
       retryCount := 0, initError := none }, .bootstrapOk)
  else
    ({ isInit := false, initializing := false, hasInitPromise := true,
       retryCount := s.retryCount + 1, initError := some newErr }, .bootstrapFailed newErr)

/-- Embedding of CornerstoneService.retryInitialization (lines 71-79): reset
initialized, initializing and initPromise - and only those - then call the
initialize method again. -/
def retryInit (s : SvcState) (bootstrapSucceeds : Bool) (newErr : Nat) :
    SvcState × InitOutcome :=
  initCall { s with isInit := false, initializing := false, hasInitPromise := false }
    bootstrapSucceeds newErr

/-- The freshly constructed service. -/
def freshSvc : SvcState :=
  { isInit := false, initializing := false, hasInitPromise := false,
    retryCount := 0, initError := none }

/-- The service after three failed bootstrap attempts (error code 7). -/
def exhaustedSvc : SvcState :=
  (initCall (initCall (initCall freshSvc false 7).1 false 7).1 false 7).1

/-! ## Engine service: concurrent acquisition (CornerstoneService.getRenderingEngine) -/

/-- The shared state two concurrent getRenderingEngine(id) calls race on: the
registry entry for the id (its refCount when present) and the number of
RenderingEngine constructions performed. -/
structure AcqState where
  entry : Option Nat
  creations : Nat
deriving DecidableEq

/-- Progress of one getRenderingEngine call through its atomic segments.
checking: past the awaited initialize, about to run the registry lookup
(lines 95-99) and, on a miss, to start createRenderingEngine (line 101);
registering: past the awaited createRenderingEngine, about to store
refCount 1 (lines 102-106); settled: returned. -/
inductive AcqPc
  | checking
  | registering
  | settled
deriving DecidableEq

/-- One atomic segment of a getRenderingEngine call. The lookup-and-increment
on a registry hit is one segment with no suspension point; on a miss the call
suspends on createRenderingEngine between the lookup and the store, and the
store unconditionally writes a fresh entry with refCount 1. -/
def acqStep (s : AcqState) : AcqPc → AcqState × AcqPc
  | .checking =>
    match s.entry with
    | some n => ({ s with entry := some (n + 1) }, .settled)
    | none => ({ s with creations := s.creations + 1 }, .registering)
  | .registering => ({ s with entry := some 1 }, .settled)
  | .settled => (s, .settled)

/-- Run a schedule of microtask slots over two getRenderingEngine calls for
the same id: true gives the slot to the first call, false to the second. -/
def acqRun : List Bool → AcqState → AcqPc → AcqPc → AcqState
  | [], s, _, _ => s
  | b :: rest, s, pa, pb =>
    if b then
      let r := acqStep s pa
      acqRun rest r.1 r.2 pb
    else
      let r := acqStep s pb
      acqRun rest r.1 pa r.2

/-- Both calls start with an empty registry. -/
def acqStart : AcqState := { entry := none, creations := 0 }

/-! ## Engine release and teardown (releaseRenderingEngine, cleanupCornerstone3D) -/

/-- Teardown events, recording destruction order. -/
inductive TeardownEvent
  | toolGroupDestroyed (id : String)
  | engineDestroyed (id : String)
deriving DecidableEq

/-- A tool group as tracked by the ToolGroupManager, with the rendering
engine its viewports were added against. -/
structure ToolGroupM where
  id : String
  renderingEngineId : String
deriving DecidableEq

/-- The world the release path mutates: the service registry (id to
refCount), the engine registry of the underlying library, the tool-group
manager state, and the teardown trace. -/
structure EngineWorld where
  registry : List (String × Int)
  engines : List String
  toolGroups : List ToolGroupM
  trace : List TeardownEvent
deriving DecidableEq

/-- Destroy one tool group through ToolGroupManager when present (the
getToolGroup guard of cleanupCornerstone3D lines 264-276). -/
def destroyToolGroupM (w : EngineWorld) (tgid : String) : EngineWorld :=
  if w.toolGroups.any (fun t => t.id = tgid) then
    { w with toolGroups := w.toolGroups.filter (fun t => t.id ≠ tgid),
             trace := w.trace ++ [.toolGroupDestroyed tgid] }
  else w

/-- Embedding of cleanupCornerstone3D (cornerstone3DInit.ts lines 259-294):
destroy each tool group of the given list, then destroy the rendering engine
when the library still knows it. The cache purge is not observable here. -/
def cleanupCornerstone3D (w : EngineWorld) (renderingEngineId : String)
    (toolGroupIds : List String) : EngineWorld :=
  let w1 := toolGroupIds.foldl destroyToolGroupM w
  if w1.engines.contains renderingEngineId then
    { w1 with engines := w1.engines.filter (fun e => e ≠ renderingEngineId),
              trace := w1.trace ++ [.engineDestroyed renderingEngineId] }
  else w1

/-- Registry entry removal (the delete on line 129). -/
def removeEntry (reg : List (String × Int)) (id : String) : List (String × Int) :=
  reg.filter (fun p => p.1 ≠ id)

/-- Registry refCount update. -/
def setRefCount (reg : List (String × Int)) (id : String) (n : Int) : List (String × Int) :=
  reg.map (fun p => if p.1 = id then (p.1, n) else p)

/-- Embedding of CornerstoneService.releaseRenderingEngine (cornerstoneService.ts
lines 117-131): warn-and-return on an unknown id, decrement the refCount, and
at refCount at most zero or under force call cleanupCornerstone3D with the id
and an empty tool-group list, then delete the registry entry. -/
def releaseRenderingEngine (w : EngineWorld) (id : String) (force : Bool) : EngineWorld :=
  match List.lookup id w.registry with
  | none => w
  | some n =>
    let n1 := n - 1
    if n1 ≤ 0 ∨ force then
      let w1 := cleanupCornerstone3D w id []
      { w1 with registry := removeEntry w.registry id }
    else { w with registry := setRefCount w.registry id n1 }

/-- Service probe hasRenderingEngine (lines 138-140). -/
def hasRenderingEngine (w : EngineWorld) (id : String) : Bool :=
  (List.lookup id w.registry).isSome

/-- ToolGroupManager.getToolGroup probe. -/
def getToolGroupM (w : EngineWorld) (tgid : String) : Option ToolGroupM :=
  w.toolGroups.find? (fun t => t.id = tgid)

/-- A world with one registered engine at refCount 1 and one tool group
bound to it. -/
def worldOneEngine : EngineWorld :=
  { registry := [("engineA", 1)], engines := ["engineA"],
    toolGroups := [{ id := "tgA", renderingEngineId := "engineA" }], trace := [] }

/-! ## Viewport setup (DicomViewer3D.setupViewport and loadAsStack) -/

/-- Which load path a viewport ended on. -/
inductive LoadMode
  | volumeMode
  | stackMode
deriving DecidableEq

/-- Oracles and inputs for one run of setupViewport: the processed image ids,
the metadata environment consulted through the volume loader service, the
validation verdict, whether the volume-capability check throws, and whether
the awaited engine acquisition, the volume steps (createAndCacheVolume,
setVolumes, load, render) and the stack steps (setStack, render) fail. -/
structure SetupOracle where
  processedImageIds : List String
  env : MetaEnv
  validationValid : Bool
  volumeCheckThrows : Bool
  engineOk : Bool
  volumeStepFails : Bool
  stackFails : Bool

/-- Observable outcome of one setupViewport run: the error banner, the
(success, is2DImage) pair passed to the onImageLoaded callback, the load mode
and ids the viewport ended with, and the is3D / volumeLoadingFailed /
volumeLoadingAttempted component state (none when never assigned). -/
structure ViewerOutcome where
  errorMsg : Option String
  onImageLoaded : Option (Bool × Bool)
  mode : Option LoadMode
  loadedIds : List String
  is3D : Option Bool
  volumeLoadingFailed : Option Bool
  volumeLoadingAttempted : Option Bool
deriving DecidableEq

/-- Embedding of setupViewport (DicomViewer3D.tsx lines 410-529) with the
loadAsStack helper (lines 532-537). Empty ids and failed validation report
failure; otherwise the volume decision runs vlsCanLoadAsVolume for more than
two ids (a thrown check is caught as false); on the volume path any failed
volume step sets volumeLoadingFailed and falls back to loadAsStack with the
same ids; the final callback receives (true, not isVolumeData) computed from
the pre-fallback decision; an escaped error reports (false, false). -/
def setupViewport (o : SetupOracle) : ViewerOutcome :=
  if o.processedImageIds = [] then
    { errorMsg := some "No valid images provided", onImageLoaded := some (false, false),
      mode := none, loadedIds := [], is3D := none,
      volumeLoadingFailed := none, volumeLoadingAttempted := none }
  else if !o.validationValid then
    { errorMsg := some "Invalid image format", onImageLoaded := some (false, false),
      mode := none, loadedIds := [], is3D := none,
      volumeLoadingFailed := none, volumeLoadingAttempted := none }
  else
    let isVolumeData : Bool :=
      decide (2 < o.processedImageIds.length)
        && (if o.volumeCheckThrows then false
            else vlsCanLoadAsVolume o.env o.processedImageIds)
    if !o.engineOk then
      { errorMsg := some "Setup error", onImageLoaded := some (false, false),
        mode := none, loadedIds := [], is3D := none,
        volumeLoadingFailed := none, volumeLoadingAttempted := none }
    else if isVolumeData then
      if o.volumeStepFails then
        if o.stackFails then
          { errorMsg := some "Setup error", onImageLoaded := some (false, false),
            mode := none, loadedIds := [], is3D := none,
            volumeLoadingFailed := some true, volumeLoadingAttempted := none }
        else
          { errorMsg := none, onImageLoaded := some (true, !isVolumeData),
            mode := some .stackMode, loadedIds := o.processedImageIds,
            is3D := some false, volumeLoadingFailed := some true,
            volumeLoadingAttempted := none }
      else
        { errorMsg := none, onImageLoaded := some (true, !isVolumeData),
          mode := some .volumeMode, loadedIds := o.processedImageIds,
          is3D := some true, volumeLoadingFailed := some false,
          volumeLoadingAttempted := some true }
    else
      if o.stackFails then
        { errorMsg := some "Setup error", onImageLoaded := some (false, false),
          mode := none, loadedIds := [], is3D := none,
          volumeLoadingFailed := none, volumeLoadingAttempted := none }
      else
        { errorMsg := none, onImageLoaded := some (true, !isVolumeData),
          mode := some .stackMode, loadedIds := o.processedImageIds,
          is3D := some false, volumeLoadingFailed := none,
          volumeLoadingAttempted := none }

/-- A run in which the decision engine approves a volume but every volume
step fails while the stack fallback succeeds. -/
def fallbackOracle : SetupOracle :=
  { processedImageIds := ["imgA", "imgB", "imgC"], env := fullMetaEnv,
    validationValid := true, volumeCheckThrows := false, engineOk := true,
    volumeStepFails := true, stackFails := false }

/-! ## Markup state manager (AnnotationManagerService of src/unnamed/part_004) -/

/-- One markup object as held by the external engine state: its uid (the
empty string models a missing uid, per JS falsiness), the tool that drew it,
and its serialized geometry payload. -/
structure Annot where
  uid : String
  toolName : String
  payload : String
deriving DecidableEq

/-- Metadata record kept per annotation uid (the AnnotationMetadata shape). -/
structure AnnotMeta where
  studyId : String
  userId : String
  toolName : String
  isLocked : Bool
  isVisible : Bool
  groupId : Option String
  aiAnalysis : Option String
deriving DecidableEq

/-- The per-tool-group state entry of the manager (the AnnotationState shape):
selected, locked and hidden uid sets, group map and metadata map, with JS Set
and Map modelled by dedup-on-add lists and association lists. -/
structure AnnotState where
  toolGroupId : String
  selected : List String
  lockedAnnotations : List String
  hiddenAnnotations : List String
  annotationGroups : List (String × List String)
  metadata : List (String × AnnotMeta)
deriving DecidableEq

/-- The manager's state map from toolGroupId to its entry. -/
abbrev AMState : Type := List (String × AnnotState)

/-- The empty entry seeded for a new tool group (ensureStateExists body,
part_004 lines 862-873). -/
def emptyAnnotState (tgid : String) : AnnotState :=
  { toolGroupId := tgid, selected := [], lockedAnnotations := [],
    hiddenAnnotations := [], annotationGroups := [], metadata := [] }

/-- Embedding of ensureStateExists: seed an empty entry when the map has
none for this tool group (Map.set appends a new key). -/
def ensureStateExists (s : AMState) (tgid : String) : AMState :=
  if (List.lookup tgid s).isSome then s else s ++ [(tgid, emptyAnnotState tgid)]

/-- The this.state.get(toolGroupId) read that follows ensureStateExists in
every public method; the default is never reached (ensureStateExists
guarantees presence, proved below). -/
def amGetState (s : AMState) (tgid : String) : AnnotState :=
  (List.lookup tgid s).getD (emptyAnnotState tgid)

/-- Replace the entry of one tool group. -/
def amSetState (s : AMState) (tgid : String) (st : AnnotState) : AMState :=
  s.map (fun p => if p.1 = tgid then (p.1, st) else p)

/-- JS Set.add on the list model. -/
def addUnique (x : String) (l : List String) : List String :=
  if x ∈ l then l else l ++ [x]

/-- JS Set.delete on the list model. -/
def removeAllStr (x : String) (l : List String) : List String :=
  l.filter (fun y => y ≠ x)

/-- Embedding of getSelectedAnnotations (part_004 lines 402-419): ensure the
entry, prefer the engine selection API when it is available and returns an
array (the engineSelected oracle), otherwise fall back to the internal
selected set. -/
def getSelectedAnnots (engineSelected : Option (List String)) (s : AMState)
    (tgid : String) : AMState × List String :=
  let s1 := ensureStateExists s tgid
  match engineSelected with
  | some arr => (s1, arr)
  | none => (s1, (amGetState s1 tgid).selected)

/-- Embedding of selectAnnotation: ensure the entry, add the uid to the
selected set (the forward to the engine selection API is not observable in
the local state). -/
def selectAnnot (s : AMState) (tgid uid : String) : AMState :=
  let s1 := ensureStateExists s tgid
  let st := amGetState s1 tgid
  amSetState s1 tgid { st with selected := addUnique uid st.selected }

/-- Embedding of lockAnnotation (part_004 lines 422-448): ensure the entry,
add the uid to the locked set, and set isLocked on its metadata (the empty
object default of the source is modelled by default metadata fields). -/
def lockAnnot (s : AMState) (tgid uid : String) : AMState :=
  let s1 := ensureStateExists s tgid
  let st := amGetState s1 tgid
  let m := (List.lookup uid st.metadata).getD
    { studyId := "", userId := "", toolName := "", isLocked := false,
      isVisible := true, groupId := none, aiAnalysis := none }
  amSetState s1 tgid
    { st with lockedAnnotations := addUnique uid st.lockedAnnotations,
              metadata := (uid, { m with isLocked := true }) ::
                st.metadata.filter (fun p => p.1 ≠ uid) }

/-- Embedding of getAnnotationGroup (part_004 lines 568-576): ensure the
entry, empty list when the group is unknown, its members otherwise. -/
def getAnnotGroup (s : AMState) (tgid gid : String) : AMState × List String :=
  let s1 := ensureStateExists s tgid
  match List.lookup gid (amGetState s1 tgid).annotationGroups with
  | none => (s1, [])
  | some anns => (s1, anns)

/-- Embedding of getAnnotationGroups (part_004 lines 579-589): ensure the
entry and return the whole group map. -/
def getAnnotGroups (s : AMState) (tgid : String) : AMState × List (String × List String) :=
  let s1 := ensureStateExists s tgid
  (s1, (amGetState s1 tgid).annotationGroups)

/-- Embedding of getAnnotationMetadata (part_004 lines 592-596): ensure the
entry and look the uid up in the metadata map. -/
def getAnnotMetadata (s : AMState) (tgid uid : String) : AMState × Option AnnotMeta :=
  let s1 := ensureStateExists s tgid
  (s1, List.lookup uid (amGetState s1 tgid).metadata)

/-! ## Annotation save/load round trip -/

/-- One persisted record as posted by saveAnnotations: studyId, userId, the
tool type, and the JSON-serialized annotation; serialization of a plain data
object followed by JSON.parse is modelled structurally, which is exactly
equivalence up to re-serialization. -/
structure SavedRecord where
  studyId : String
  userId : String
  rtype : String
  data : Annot
deriving DecidableEq

/-- Embedding of saveAnnotations (part_004 lines 645-683): iterate the known
annotations, skip any whose uid is missing, and issue one persistence call
per annotation with type defaulted to unknown when the tool name is absent. -/
def saveAnnots (studyId userId : String) (anns : List Annot) : List SavedRecord :=
  anns.filterMap (fun a =>
    if a.uid = "" then none
    else some { studyId := studyId, userId := userId,
                rtype := if a.toolName = "" then "unknown" else a.toolName,
                data := a })

/-- The record saveAnnotations posts for one annotation. -/
def mkSavedRecord (studyId userId : String) (a : Annot) : SavedRecord :=
  { studyId := studyId, userId := userId,
    rtype := if a.toolName = "" then "unknown" else a.toolName, data := a }

/-- The tool-name list the manager falls back to when the engine cannot
enumerate tools (part_004 lines 341-352). -/
def knownToolNames : List String :=
  ["Length", "Angle", "RectangleROI", "EllipticalROI", "CircleROI", "Probe",
   "Bidirectional", "ArrowAnnotate", "CobbAngle", "PlanarFreehandROI"]

/-- Embedding of clearAllAnnotations (part_004 lines 744-772): best-effort
removal, from the engine state, of every annotation with a uid under one of
the known tool names. -/
def clearAllAnnots (engine : List Annot) : List Annot :=
  engine.filter (fun a => ¬(a.toolName ∈ knownToolNames ∧ a.uid ≠ ""))

/-- Embedding of addAnnotationFromData (part_004 lines 775-800): refuse when
the tool name is missing, otherwise add the parsed data to the engine state. -/
def addAnnotFromData (toolName : String) (data : Annot) (engine : List Annot) :
    List Annot :=
  if toolName = "" then engine else engine ++ [data]

/-- Embedding of loadAnnotations (part_004 lines 686-741) restricted to the
engine-visible state: clear the group's annotations, then recreate each
fetched record from its parsed payload. -/
def loadAnnots (records : List SavedRecord) (engine : List Annot) : List Annot :=
  records.foldl (fun e r => addAnnotFromData r.rtype r.data e) (clearAllAnnots engine)

/-- Save to a fresh study then load the same study's records back. -/
def annotRoundTrip (studyId userId : String) (engine : List Annot) : List Annot :=
  loadAnnots (saveAnnots studyId userId engine) engine

/-- A concrete markup object with a uid. -/
def demoAnnot : Annot := { uid := "uid1", toolName := "Length", payload := "geom" }

/-- The series the classifier produces for demoFiles. -/
def demoSeries : ImageSeries :=
  { images :=
      [{ file := dcmFileA, format := .dicom, imageId := mkWadouriId dcmFileA },
       { file := dcmFileB, format := .dicom, imageId := mkWadouriId dcmFileB },
       { file := dcmFileC, format := .dicom, imageId := mkWadouriId dcmFileC }],
    format := .dicom, viewerType := .dicomViewer }

/-- The series the classifier produces for a lone DICOMDIR file. -/
def dicomdirSeries : ImageSeries :=
  { images :=
      [{ file := dicomdirOnlyFile, format := .dicom, imageId := mkWadouriId dicomdirOnlyFile }],
    format := .dicomdir, viewerType := .dicomViewer }

/-- The valid-image list processImageSeries builds on the no-DICOMDIR path:
sort, construct ids, run the per-file loop, drop unknown formats. -/
def seriesValidImages (o : ClassifyOracle) (files : List RawFile) : List ProcessedImage :=
  (processLoop o (List.insertionSort fileLe files)
    (createImageIdsFromFiles (List.insertionSort fileLe files))).filter
    (fun img => img.format ≠ FileFormat.unknown)

/-! ## Order lemmas for the filename comparator -/

theorem lexLe_total : ∀ a b : List Nat, lexLe a b = true ∨ lexLe b a = true := by
  intro a
  induction a with
  | nil => intro b; left; rfl
  | cons x xs ih =>
    intro b
    cases b with
    | nil => right; rfl
    | cons y ys =>
      simp only [lexLe]
      by_cases h1 : x < y
      · left; simp [h1]
      · by_cases h2 : y < x
        · right; simp [h2]
        · have hxy : x = y := by omega
          subst hxy
          simp only [Nat.lt_irrefl, if_false]
          exact ih ys

theorem lexLe_trans :
    ∀ a b c : List Nat, lexLe a b = true → lexLe b c = true → lexLe a c = true := by
  intro a
  induction a with
  | nil => intro b c _ _; rfl
  | cons x xs ih =>
    intro b c hab hbc
    cases b with
    | nil => simp [lexLe] at hab
    | cons y ys =>
      cases c with
      | nil => simp [lexLe] at hbc
      | cons z zs =>
        simp only [lexLe] at hab hbc ⊢
        by_cases h1 : x < y
        · by_cases h2 : y < z
          · simp [show x < z by omega]
          · by_cases h3 : z < y
            · simp [h2, h3] at hbc
            · have hyz : y = z := by omega
              subst hyz
              simp [h1]
        · by_cases h3 : y < x
          · simp [h1, h3] at hab
          · have hxy : x = y := by omega
            subst hxy
            simp only [Nat.lt_irrefl, if_false] at hab
            by_cases h2 : x < z
            · simp [h2]
            · by_cases h4 : z < x
              · simp [h2, h4] at hbc
              · have hxz : x = z := by omega
                subst hxz
                simp only [Nat.lt_irrefl, if_false] at hbc ⊢
                exact ih ys zs hab hbc

instance : IsTotal RawFile fileLe := ⟨fun a b => lexLe_total a.name b.name⟩

instance : IsTrans RawFile fileLe := ⟨fun a b c => lexLe_trans a.name b.name c.name⟩

/-! ## C1: the volume-loadability decision -/

/-- C1 counterexample: with spacing, orientation and position present but
sliceThickness absent, the VolumeLoaderService decision (the one consulted by
the viewer) still returns true on a three-id list, so missing one of the four
fields does not make the decision false as the claim states. -/
theorem vlsCanLoadAsVolume_ignores_thickness_cx :
    vlsCanLoadAsVolume thicknessFreeEnv ["imgA", "imgB", "imgC"] = true ∧
    (thicknessFreeEnv.meta "imgA").sliceThickness = false ∧
    canLoadAsVolume thicknessFreeEnv ["imgA", "imgB", "imgC"] = false := by
  decide

/-- C1 amended: both decisions are false below three identifiers; the
cornerstone3DInit canLoadAsVolume is true exactly when the list has at least
three ids, the probe load succeeds and all four geometric fields are present
for the first id; the VolumeLoaderService canLoadAsVolume used by the viewer
requires only pixel spacing, orientation and position - sliceThickness is not
consulted there. -/
theorem canLoadAsVolume_characterization :
    ∀ (env : MetaEnv) (id0 : String) (rest : List String),
      (canLoadAsVolume env [] = false ∧ vlsCanLoadAsVolume env [] = false) ∧
      (canLoadAsVolume env (id0 :: rest) = true ↔
        2 ≤ rest.length ∧ env.loadFails id0 = false ∧
        ((env.meta id0).imagePixelSpacing || (env.meta id0).pixelSpacing) = true ∧
        (env.meta id0).imageOrientationPatient = true ∧
        (env.meta id0).imagePositionPatient = true ∧
        (env.meta id0).sliceThickness = true) ∧
      (vlsCanLoadAsVolume env (id0 :: rest) = true ↔
        2 ≤ rest.length ∧
        ((env.meta id0).imagePixelSpacing || (env.meta id0).pixelSpacing) = true ∧
        (env.meta id0).imageOrientationPatient = true ∧
        (env.meta id0).imagePositionPatient = true) := by
  intro env id0 rest
  refine ⟨⟨rfl, rfl⟩, ?_, ?_⟩
  · unfold canLoadAsVolume
    by_cases hlen : (id0 :: rest).length < 3
    · simp only [hlen, if_true]
      constructor
      · intro h; exact absurd h (by simp)
      · intro h
        exfalso
        have := h.1
        simp only [List.length_cons] at hlen
        omega
    · simp only [hlen, if_false]
      have hlen2 : 2 ≤ rest.length := by
        simp only [List.length_cons] at hlen; omega
      by_cases hload : env.loadFails id0
      · simp [hload, hlen2]
      · have hload2 : env.loadFails id0 = false := by
          cases h : env.loadFails id0
          · rfl
          · exact absurd h hload
        simp [hload2, hlen2, Bool.and_eq_true]
        tauto
  · unfold vlsCanLoadAsVolume
    by_cases hlen : (id0 :: rest).length < 3
    · simp only [hlen, if_true]
      constructor
      · intro h; exact absurd h (by simp)
      · intro h
        exfalso
        have := h.1
        simp only [List.length_cons] at hlen
        omega
    · simp only [hlen, if_false]
      have hlen2 : 2 ≤ rest.length := by
        simp only [List.length_cons] at hlen; omega
      constructor
      · intro h
        cases hsp : (env.meta id0).imagePixelSpacing <;>
          cases hps : (env.meta id0).pixelSpacing <;>
            cases hor : (env.meta id0).imageOrientationPatient <;>
              cases hpo : (env.meta id0).imagePositionPatient <;>
                simp_all
      · intro h
        obtain ⟨-, hsp, hor, hpo⟩ := h
        simp [hsp, hor, hpo]

/-! ## C3: concurrent getRenderingEngine calls -/

/-- C3 counterexample: under the actual microtask order of two
getRenderingEngine calls issued before either resolves (both registry checks
run before either registration, schedule first-second-first-second), two
engine creations occur and the registry entry ends with refCount 1, not one
creation with refCount 2 as claimed. -/
theorem acquire_concurrent_refcount_cx :
    acqRun [true, false, true, false] acqStart .checking .checking =
      { entry := some 1, creations := 2 } ∧
    ¬(acqRun [true, false, true, false] acqStart .checking .checking =
      { entry := some 2, creations := 1 }) := by
  decide

/-- C3 amended: because getRenderingEngine suspends on the awaited
createRenderingEngine between its registry lookup and its registry store, any
schedule in which both calls pass the lookup before either stores (which is
what issuing both before either resolves produces) performs two engine
creations and leaves the entry at refCount 1, the second store overwriting
the first. -/
theorem acquire_concurrent_double_creation :
    ∀ a b c d : Bool, (a ≠ b) →
      [a, b, c, d].count true = 2 →
      acqRun [a, b, c, d] acqStart .checking .checking =
        { entry := some 1, creations := 2 } := by
  decide

/-- C3 witness: the microtask schedule of the counterexample satisfies the
concurrency condition and produces the amended outcome. -/
theorem acquire_concurrent_double_creation_witness :
    acqRun [true, false, true, false] acqStart .checking .checking =
      { entry := some 1, creations := 2 } :=
  acquire_concurrent_double_creation true false true false (by decide) (by decide)

/-! ## C4: bounded retries and the manual reset -/

/-- C4: after the retry budget is exhausted (three failed bootstrap attempts,
stored error 7), a plain initialize call fails fast with the stored error, as
the claim states; but retryInitialization - which resets only initialized,
initializing and initPromise, not retryCount or initError - also fails fast
with the stored error even though the bootstrap would now succeed, so the
manual reset does not re-arm the retry budget. Below the bound a retry does
run and succeeds. -/
theorem retryInit_after_exhaustion_fails_fast :
    exhaustedSvc.retryCount = 3 ∧ exhaustedSvc.initError = some 7 ∧
    (initCall exhaustedSvc true 9).2 = InitOutcome.failFast 7 ∧
    (retryInit exhaustedSvc true 9).2 = InitOutcome.failFast 7 ∧
    (retryInit exhaustedSvc true 9).1.isInit = false ∧
    (retryInit exhaustedSvc true 9).1.retryCount = 3 ∧
    (initCall (initCall freshSvc false 7).1 true 9).2 = InitOutcome.bootstrapOk := by
  decide

/-! ## C5: release and teardown -/

theorem lookup_removeEntry (reg : List (String × Int)) (id : String) :
    List.lookup id (removeEntry reg id) = none := by
  induction reg with
  | nil => rfl
  | cons p rest ih =>
    unfold removeEntry at ih ⊢
    by_cases h : p.1 = id
    · have hd : (decide (p.1 ≠ id)) = false := by simp [h]
      rw [List.filter_cons, hd]
      exact ih
    · have hd : (decide (p.1 ≠ id)) = true := by simp [h]
      rw [List.filter_cons, hd]
      have hb : (id == p.1) = false := by
        simp only [beq_eq_false_iff_ne, ne_eq]
        exact fun hx => h hx.symm
      simp only [List.lookup, hb]
      exact ih

/-- C5 counterexample: releasing the only reference destroys the engine and
removes the registry entry, yet the tool group bound to the engine is still
found by the tool-group probe, because releaseRenderingEngine passes an empty
tool-group list to cleanupCornerstone3D; the trace holds no tool-group
destruction. -/
theorem release_leaves_toolGroup_findable_cx :
    (getToolGroupM (releaseRenderingEngine worldOneEngine "engineA" false) "tgA").isSome
        = true ∧
    hasRenderingEngine (releaseRenderingEngine worldOneEngine "engineA" false) "engineA"
        = false ∧
    (releaseRenderingEngine worldOneEngine "engineA" false).trace
        = [TeardownEvent.engineDestroyed "engineA"] := by
  decide

/-- C5 amended: when release brings the refCount to zero or force is set, the
engine is destroyed and its registry entry removed, so both engine probes
report not-found afterwards; but no ToolGroup is destroyed - the cleanup is
invoked with an empty tool-group list - so every bound tool group remains in
the manager and only an engine-destruction event can be appended to the
trace. -/
theorem releaseRenderingEngine_destroys_engine_only :
    ∀ (w : EngineWorld) (id : String) (n : Int) (force : Bool),
      List.lookup id w.registry = some n → (n - 1 ≤ 0 ∨ force = true) →
      hasRenderingEngine (releaseRenderingEngine w id force) id = false ∧
      (releaseRenderingEngine w id force).toolGroups = w.toolGroups ∧
      id ∉ (releaseRenderingEngine w id force).engines ∧
      ((releaseRenderingEngine w id force).trace = w.trace ∨
        (releaseRenderingEngine w id force).trace
          = w.trace ++ [TeardownEvent.engineDestroyed id]) := by
  intro w id n force hlook hcond
  have hrel : releaseRenderingEngine w id force =
      { cleanupCornerstone3D w id [] with registry := removeEntry w.registry id } := by
    unfold releaseRenderingEngine
    rw [hlook]
    simp only [if_pos hcond]
  have hclean : cleanupCornerstone3D w id [] =
      if w.engines.contains id = true then
        { w with engines := w.engines.filter (fun e => e ≠ id),
                 trace := w.trace ++ [TeardownEvent.engineDestroyed id] }
      else w := by
    unfold cleanupCornerstone3D
    rfl
  rw [hrel, hclean]
  by_cases hmem : w.engines.contains id = true
  · rw [if_pos hmem]
    refine ⟨?_, rfl, ?_, Or.inr rfl⟩
    · simp [hasRenderingEngine, lookup_removeEntry]
    · intro hin
      rw [List.mem_filter] at hin
      simp at hin
  · rw [if_neg hmem]
    refine ⟨?_, rfl, ?_, Or.inl rfl⟩
    · simp [hasRenderingEngine, lookup_removeEntry]
    · intro hin
      exact hmem (List.elem_iff.mpr hin)

/-- C5 witness: the amended statement applied to the one-engine world. -/
theorem releaseRenderingEngine_destroys_engine_only_witness :
    hasRenderingEngine (releaseRenderingEngine worldOneEngine "engineA" false) "engineA"
        = false ∧
    (releaseRenderingEngine worldOneEngine "engineA" false).toolGroups
        = worldOneEngine.toolGroups ∧
    "engineA" ∉ (releaseRenderingEngine worldOneEngine "engineA" false).engines ∧
    ((releaseRenderingEngine worldOneEngine "engineA" false).trace = worldOneEngine.trace ∨
      (releaseRenderingEngine worldOneEngine "engineA" false).trace
        = worldOneEngine.trace ++ [TeardownEvent.engineDestroyed "engineA"]) :=
  releaseRenderingEngine_destroys_engine_only worldOneEngine "engineA" 1 false
    (by decide) (by decide)

/-! ## C2: volume-failure fallback in setupViewport -/

/-- C2 counterexample: when the decision engine approves a volume and the
volume load fails while the stack fallback succeeds, the caller's
onImageLoaded callback receives (true, false) - success with the is2DImage
flag still computed from the pre-fallback decision - not the claimed
loaded-as-2D signal (true, true); the viewport does end on the stack path
with no surfaced error. -/
theorem setupViewport_fallback_flag_cx :
    (setupViewport fallbackOracle).mode = some LoadMode.stackMode ∧
    (setupViewport fallbackOracle).errorMsg = none ∧
    (setupViewport fallbackOracle).onImageLoaded = some (true, false) ∧
    ¬((setupViewport fallbackOracle).onImageLoaded = some (true, true)) := by
  decide

/-- C2 amended: whenever the decision engine approves volume loading and any
volume step fails while the stack fallback succeeds, setupViewport loads the
same identifier list as a stack viewport and reports success with no error;
the degradation is recorded in component state (volumeLoadingFailed true,
is3D false) but the is2DImage flag handed to the caller stays false, because
it is computed from the pre-fallback volume decision. -/
theorem setupViewport_volume_failure_falls_back :
    ∀ o : SetupOracle,
      o.validationValid = true → o.volumeCheckThrows = false →
      2 < o.processedImageIds.length →
      vlsCanLoadAsVolume o.env o.processedImageIds = true →
      o.engineOk = true → o.volumeStepFails = true → o.stackFails = false →
      setupViewport o =
        { errorMsg := none, onImageLoaded := some (true, false),
          mode := some LoadMode.stackMode, loadedIds := o.processedImageIds,
          is3D := some false, volumeLoadingFailed := some true,
          volumeLoadingAttempted := none } := by
  intro o hval hthrow hlen hcan heng hvol hstk
  have hne : ¬(o.processedImageIds = []) := by
    intro h
    rw [h] at hlen
    simp at hlen
  unfold setupViewport
  rw [if_neg hne]
  rw [hval, hthrow, heng, hvol, hstk]
  simp only [Bool.not_true, Bool.false_eq_true, if_false, hcan, decide_eq_true hlen]
  rfl

/-- C2 witness: the amended statement at the concrete fallback run. -/
theorem setupViewport_volume_failure_falls_back_witness :
    setupViewport fallbackOracle =
      { errorMsg := none, onImageLoaded := some (true, false),
        mode := some LoadMode.stackMode, loadedIds := fallbackOracle.processedImageIds,
        is3D := some false, volumeLoadingFailed := some true,
        volumeLoadingAttempted := none } :=
  setupViewport_volume_failure_falls_back fallbackOracle rfl rfl (by decide) (by decide)
    rfl rfl rfl

/-! ## C6: the DICM magic path of the classifier -/

/-- C6 counterexample: a 132-byte file with the DICM magic at offset 128 but
a bin extension and no declared content type classifies unknown, not dicom -
the magic check is never reached without the dcm-extension or
dicom-content-type gate. -/
theorem dicm_magic_without_dcm_extension_cx :
    determineFileFormat oracleAllOk dicmStealthFile = FileFormat.unknown ∧
    132 ≤ dicmStealthFile.bytes.length ∧
    dicmMagic dicmStealthFile.bytes = true ∧
    FileFormat.unknown ≠ FileFormat.dicom := by
  decide

/-- C6 amended: a file of at least 132 bytes whose bytes at offsets 128-131
decode to DICM classifies dicom provided it also carries the dcm extension or
the application/dicom content type (and the header read succeeds); without
that extension or content type the classifier never returns dicom, whatever
the bytes hold. -/
theorem determineFileFormat_magic_gate :
    ∀ (o : ClassifyOracle) (f : RawFile),
      ((fileExtCodes f = codesOf "dcm" ∨ f.ctype = codesOf "application/dicom") →
        132 ≤ f.bytes.length → o.headerReadOk f = true → dicmMagic f.bytes = true →
        determineFileFormat o f = FileFormat.dicom) ∧
      (fileExtCodes f ≠ codesOf "dcm" → f.ctype ≠ codesOf "application/dicom" →
        determineFileFormat o f ≠ FileFormat.dicom) := by
  intro o f
  constructor
  · intro hgate hlen hread hmagic
    have hver : verifyDicomFormat o f = true := by
      unfold verifyDicomFormat
      rw [if_neg (by omega), hread]
      simp only [Bool.not_true, Bool.false_eq_true, if_false]
      rw [if_pos hmagic]
    unfold determineFileFormat
    rw [if_pos ⟨hgate, hver⟩]
  · intro hext hct
    unfold determineFileFormat
    rw [if_neg ?hgate]
    case hgate =>
      intro h
      rcases h.1 with h1 | h1
      · exact hext h1
      · exact hct h1
    split_ifs <;> simp

/-- C6 witness: the amended statement at a well-formed dcm file and at the
stealth file. -/
theorem determineFileFormat_magic_gate_witness :
    determineFileFormat oracleAllOk dcmFileA = FileFormat.dicom ∧
    determineFileFormat oracleAllOk dicmStealthFile ≠ FileFormat.dicom :=
  ⟨(determineFileFormat_magic_gate oracleAllOk dcmFileA).1 (by decide) (by decide)
      (by decide) (by decide),
    (determineFileFormat_magic_gate oracleAllOk dicmStealthFile).2 (by decide) (by decide)⟩

/-! ## Classifier lemmas shared by the series claims -/

theorem processLoop_ids_sublist (o : ClassifyOracle) :
    ∀ (fs : List RawFile) (ids : List ImageId),
      ((processLoop o fs ids).map (fun p => p.imageId)).Sublist ids := by
  intro fs
  induction fs with
  | nil => intro ids; cases ids <;> simp [processLoop]
  | cons f fs ih =>
    intro ids
    cases ids with
    | nil => simp [processLoop]
    | cons i is =>
      by_cases h : o.perFileOk f = true
      · simp only [processLoop, if_pos h, List.map_cons]
        exact List.Sublist.cons₂ i (ih is)
      · simp only [processLoop, if_neg h]
        exact List.Sublist.cons i (ih is)

theorem processLoop_mem (o : ClassifyOracle) :
    ∀ (fs : List RawFile) (ids : List ImageId) (p : ProcessedImage),
      p ∈ processLoop o fs ids →
      p.format = determineFileFormat o p.file ∧ p.file ∈ fs := by
  intro fs
  induction fs with
  | nil => intro ids p hp; cases ids <;> simp [processLoop] at hp
  | cons f fs ih =>
    intro ids p hp
    cases ids with
    | nil => simp [processLoop] at hp
    | cons i is =>
      by_cases h : o.perFileOk f = true
      · simp only [processLoop, if_pos h, List.mem_cons] at hp
        rcases hp with hp | hp
        · subst hp; exact ⟨rfl, List.mem_cons_self f fs⟩
        · obtain ⟨h1, h2⟩ := ih is p hp
          exact ⟨h1, List.mem_cons_of_mem f h2⟩
      · simp only [processLoop, if_neg h] at hp
        obtain ⟨h1, h2⟩ := ih is p hp
        exact ⟨h1, List.mem_cons_of_mem f h2⟩

theorem createImageIds_sorted_names :
    ∀ files : List RawFile, (∀ f ∈ files, isDicomdirFile f = false) →
      List.Sorted lexLeP
        ((createImageIdsFromFiles (List.insertionSort fileLe files)).map
          (fun i => i.source.name)) := by
  intro files hdd
  have hmem : ∀ f ∈ List.insertionSort fileLe files, isDicomdirFile f = false := by
    intro f hf
    exact hdd f ((List.mem_insertionSort fileLe).mp hf)
  have hfind : (List.insertionSort fileLe files).find? isDicomdirFile = none := by
    apply List.find?_eq_none.mpr
    intro x hx
    rw [hmem x hx]
    simp
  have hsortL : List.Sorted fileLe (List.insertionSort fileLe files) :=
    List.sorted_insertionSort fileLe files
  unfold createImageIdsFromFiles
  by_cases hLnil : List.insertionSort fileLe files = []
  · rw [if_pos hLnil]; simp
  · rw [if_neg hLnil, hfind]
    by_cases hdf : (List.insertionSort fileLe files).filter isDcmNamed = []
    · rw [if_neg (fun hne => hne hdf)]
      by_cases hif : (List.insertionSort fileLe files).filter isImageNamed = []
      · rw [if_neg (fun hne => hne hif)]
        rw [List.map_map]
        exact List.pairwise_map.mpr hsortL
      · rw [if_pos hif]
        rw [List.map_map]
        exact List.pairwise_map.mpr (hsortL.filter isImageNamed)
    · rw [if_pos hdf]
      rw [List.map_map]
      exact List.pairwise_map.mpr
        (List.sorted_insertionSort fileLe
          ((List.insertionSort fileLe files).filter isDcmNamed))

theorem processImageSeries_no_dicomdir_eq (o : ClassifyOracle) (files : List RawFile)
    (hne : files ≠ []) (hfind : files.find? isDicomdirFile = none) :
    processImageSeries o files =
      if seriesValidImages o files = [] then Except.error ProcessError.noValidImages
      else Except.ok
        { images := seriesValidImages o files,
          format := primaryFormat (formatCounts (seriesValidImages o files)),
          viewerType :=
            if primaryFormat (formatCounts (seriesValidImages o files)) = FileFormat.dicom
                ∨ primaryFormat (formatCounts (seriesValidImages o files)) = FileFormat.dicomdir
            then ViewerType.dicomViewer else ViewerType.imageViewer } := by
  unfold processImageSeries
  rw [if_neg hne, hfind]
  rfl

/-! ## C8: empty and all-unknown inputs -/

/-- C8 counterexample: the empty input fails with the distinct
no-files-provided error, not the claimed NoValidImages error; and an input
consisting of one DICOMDIR-named file - which itself classifies unknown -
returns a series instead of failing. -/
theorem processImageSeries_empty_error_cx :
    processImageSeries oracleAllOk [] = Except.error ProcessError.noFilesProvided ∧
    ProcessError.noFilesProvided ≠ ProcessError.noValidImages ∧
    processImageSeries oracleAllOk [dicomdirOnlyFile] = Except.ok dicomdirSeries ∧
    determineFileFormat oracleAllOk dicomdirOnlyFile = FileFormat.unknown := by
  refine ⟨rfl, by decide, ?_, by decide⟩
  rfl

/-- C8 amended: the empty input fails with the NoFilesProvided error; a
non-empty input with no DICOMDIR-named file all of whose files classify
unknown fails with the NoValidImages error; in both cases no ImageSeries is
returned. -/
theorem processImageSeries_rejects_empty_and_all_unknown :
    ∀ (o : ClassifyOracle) (files : List RawFile),
      processImageSeries o [] = Except.error ProcessError.noFilesProvided ∧
      (files ≠ [] → (∀ f ∈ files, isDicomdirFile f = false) →
        (∀ f ∈ files, determineFileFormat o f = FileFormat.unknown) →
        processImageSeries o files = Except.error ProcessError.noValidImages) := by
  intro o files
  constructor
  · rfl
  · intro hne hdd hunk
    have hfind : files.find? isDicomdirFile = none := by
      apply List.find?_eq_none.mpr
      intro x hx
      rw [hdd x hx]
      simp
    rw [processImageSeries_no_dicomdir_eq o files hne hfind]
    have hv : seriesValidImages o files = [] := by
      unfold seriesValidImages
      rw [List.filter_eq_nil_iff]
      intro p hp
      obtain ⟨h1, h2⟩ := processLoop_mem o _ _ p hp
      have hpf : p.file ∈ files := (List.mem_insertionSort fileLe).mp h2
      rw [h1, hunk p.file hpf]
      simp
    rw [if_pos hv]

/-- C8 witness: the amended statement at the empty input and at a single
unknown text file. -/
theorem processImageSeries_rejects_witness :
    processImageSeries oracleAllOk [] = Except.error ProcessError.noFilesProvided ∧
    processImageSeries oracleAllOk [txtFile] = Except.error ProcessError.noValidImages :=
  ⟨(processImageSeries_rejects_empty_and_all_unknown oracleAllOk []).1,
   (processImageSeries_rejects_empty_and_all_unknown oracleAllOk [txtFile]).2
     (by decide) (by decide) (by decide)⟩

/-! ## C9: identifier order of the returned series -/

/-- C9: for every multi-file input without a DICOMDIR, the identifiers of a
successfully returned series appear in ascending filename order - the files
are sorted by name before identifier construction and every later step
(dicom/raster filtering, the positional processing loop, the unknown-format
filter) preserves that order. -/
theorem processImageSeries_identifiers_sorted :
    ∀ (o : ClassifyOracle) (files : List RawFile) (s : ImageSeries),
      2 ≤ files.length →
      (∀ f ∈ files, isDicomdirFile f = false) →
      processImageSeries o files = Except.ok s →
      List.Sorted lexLeP (s.images.map (fun p => p.imageId.source.name)) := by
  intro o files s hlen hdd hok
  have hne : ¬(files = []) := by
    intro h
    rw [h] at hlen
    simp at hlen
  have hfind : files.find? isDicomdirFile = none := by
    apply List.find?_eq_none.mpr
    intro x hx
    rw [hdd x hx]
    simp
  rw [processImageSeries_no_dicomdir_eq o files hne hfind] at hok
  by_cases hv : seriesValidImages o files = []
  · rw [if_pos hv] at hok
    exact absurd hok (by simp)
  · rw [if_neg hv] at hok
    injection hok with h
    have hsub1 : (seriesValidImages o files).Sublist
        (processLoop o (List.insertionSort fileLe files)
          (createImageIdsFromFiles (List.insertionSort fileLe files))) :=
      List.filter_sublist _
    have hsub2 : ((seriesValidImages o files).map (fun p => p.imageId)).Sublist
        (createImageIdsFromFiles (List.insertionSort fileLe files)) :=
      (hsub1.map (fun p => p.imageId)).trans (processLoop_ids_sublist o _ _)
    have hsub3 : (((seriesValidImages o files).map (fun p => p.imageId)).map
        (fun i => i.source.name)).Sublist
        ((createImageIdsFromFiles (List.insertionSort fileLe files)).map
          (fun i => i.source.name)) :=
      hsub2.map (fun i => i.source.name)
    have hpair : List.Sorted lexLeP (((seriesValidImages o files).map
        (fun p => p.imageId)).map (fun i => i.source.name)) :=
      List.Pairwise.sublist hsub3 (createImageIds_sorted_names files hdd)
    rw [List.map_map] at hpair
    rw [← h]
    exact hpair

/-- C9 witness: three out-of-order dcm files come back as a series whose
identifier source names are sorted. -/
theorem processImageSeries_identifiers_sorted_witness :
    List.Sorted lexLeP (demoSeries.images.map (fun p => p.imageId.source.name)) :=
  processImageSeries_identifiers_sorted oracleAllOk demoFiles demoSeries (by decide)
    (by decide) (by rfl)

/-! ## C7: save/load round trip for annotation uids -/

theorem mem_foldl_addAnnot_of_mem :
    ∀ (records : List SavedRecord) (e : List Annot) (a : Annot),
      a ∈ e → a ∈ records.foldl (fun acc r => addAnnotFromData r.rtype r.data acc) e := by
  intro records
  induction records with
  | nil => intro e a ha; exact ha
  | cons r rest ih =>
    intro e a ha
    rw [List.foldl_cons]
    apply ih
    show a ∈ addAnnotFromData r.rtype r.data e
    unfold addAnnotFromData
    by_cases h : r.rtype = ""
    · rw [if_pos h]; exact ha
    · rw [if_neg h]; exact List.mem_append_left _ ha

theorem mem_foldl_addAnnot_of_record :
    ∀ (records : List SavedRecord) (e : List Annot) (r : SavedRecord),
      r ∈ records → r.rtype ≠ "" →
      r.data ∈ records.foldl (fun acc r => addAnnotFromData r.rtype r.data acc) e := by
  intro records
  induction records with
  | nil => intro e r hr; exact absurd hr (by simp)
  | cons q rest ih =>
    intro e r hr htype
    rw [List.foldl_cons]
    rcases List.mem_cons.mp hr with hr | hr
    · subst hr
      apply mem_foldl_addAnnot_of_mem
      show r.data ∈ addAnnotFromData r.rtype r.data e
      unfold addAnnotFromData
      rw [if_neg htype]
      exact List.mem_append_right _ (by simp)
    · exact ih _ r hr htype

/-- C7: after saveAnnotations followed by loadAnnotations for the same
study, every annotation that had a uid at save time is present again in the
engine annotation state, recreated from its re-serialized payload (uid-less
annotations are skipped by save). -/
theorem save_load_roundtrip_preserves_uids :
    ∀ (studyId userId : String) (engine : List Annot) (a : Annot),
      a ∈ engine → a.uid ≠ "" →
      a ∈ annotRoundTrip studyId userId engine := by
  intro studyId userId engine a ha huid
  have hrec : mkSavedRecord studyId userId a ∈ saveAnnots studyId userId engine := by
    apply List.mem_filterMap.mpr
    refine ⟨a, ha, ?_⟩
    rw [if_neg huid]
    rfl
  have htype : (mkSavedRecord studyId userId a).rtype ≠ "" := by
    show (if a.toolName = "" then "unknown" else a.toolName) ≠ ""
    by_cases h : a.toolName = ""
    · rw [if_pos h]; decide
    · rw [if_neg h]; exact h
  unfold annotRoundTrip loadAnnots
  exact mem_foldl_addAnnot_of_record (saveAnnots studyId userId engine) _ _ hrec htype

/-- C7 witness: the round trip at a one-annotation engine state. -/
theorem save_load_roundtrip_preserves_uids_witness :
    demoAnnot ∈ annotRoundTrip "study1" "user1" [demoAnnot] :=
  save_load_roundtrip_preserves_uids "study1" "user1" [demoAnnot] demoAnnot
    (by simp) (by decide)

/-! ## C10: query safety on a never-initialized tool group -/

theorem lookup_ensure_of_none :
    ∀ (s : AMState) (tgid : String), List.lookup tgid s = none →
      List.lookup tgid (ensureStateExists s tgid) = some (emptyAnnotState tgid) := by
  intro s tgid hnone
  unfold ensureStateExists
  rw [hnone]
  simp only [Option.isSome_none, Bool.false_eq_true, if_false]
  induction s with
  | nil => simp [List.lookup]
  | cons p rest ih =>
    rcases p with ⟨k, v⟩
    by_cases h : tgid == k
    · simp only [List.lookup, h] at hnone
      exact absurd hnone (by simp)
    · have hb : (tgid == k) = false := by
        cases hk : tgid == k
        · rfl
        · exact absurd hk (by simpa using h)
      simp only [List.lookup, hb] at hnone
      simp only [List.cons_append, List.lookup, hb]
      exact ih hnone

theorem lookup_amSetState_of_some :
    ∀ (s : AMState) (tgid : String) (st : AnnotState),
      (List.lookup tgid s).isSome = true →
      List.lookup tgid (amSetState s tgid st) = some st := by
  intro s tgid st
  induction s with
  | nil => intro h; exact absurd h (by simp)
  | cons p rest ih =>
    intro h
    rcases p with ⟨k, v⟩
    unfold amSetState at ih ⊢
    by_cases hk : k = tgid
    · subst hk
      rw [List.map_cons, if_pos rfl]
      simp [List.lookup]
    · rw [List.map_cons, if_neg (fun hx : k = tgid => hk hx)]
      have hb : (tgid == k) = false := by
        simp only [beq_eq_false_iff_ne, ne_eq]
        exact fun hx => hk hx.symm
      simp only [List.lookup, hb] at h ⊢
      exact ih h

/-- C10 counterexample: on a never-initialized toolGroupId, when the engine
selection API is available getSelectedAnnotations returns the engine's global
selection verbatim (part_004 lines 406-418), which can be non-empty - so the
query operations do not unconditionally return empty results for a
never-initialized tool group. -/
theorem getSelectedAnnots_engine_passthrough_cx :
    List.lookup "tg" ([] : AMState) = none ∧
    (getSelectedAnnots (some ["otherUid"]) [] "tg").2 = ["otherUid"] ∧
    ¬((getSelectedAnnots (some ["otherUid"]) [] "tg").2 = []) := by
  decide

/-- C10 amended: every public operation of the manager first seeds an empty
entry for an unknown tool group, so no query throws on a never-initialized
toolGroupId; getAnnotationGroup, getAnnotationGroups and getAnnotationMetadata
return empty results unconditionally, and getSelectedAnnotations returns the
empty selection when the engine selection API is unavailable - when that API
is available it returns the engine's global selection verbatim, which may be
non-empty; mutators such as selectAnnotation and lockAnnotation also find or
create the entry. -/
theorem annot_manager_uninitialized_safe :
    ∀ (s : AMState) (tgid gid uid : String),
      List.lookup tgid s = none →
      List.lookup tgid (ensureStateExists s tgid) = some (emptyAnnotState tgid) ∧
      (getSelectedAnnots none s tgid).2 = [] ∧
      (∀ engineArr : List String, (getSelectedAnnots (some engineArr) s tgid).2 = engineArr) ∧
      (getAnnotGroup s tgid gid).2 = [] ∧
      (getAnnotGroups s tgid).2 = [] ∧
      (getAnnotMetadata s tgid uid).2 = none ∧
      List.lookup tgid (selectAnnot s tgid uid)
        = some { emptyAnnotState tgid with selected := [uid] } ∧
      (List.lookup tgid (lockAnnot s tgid uid)).isSome = true := by
  intro s tgid gid uid hnone
  have hens := lookup_ensure_of_none s tgid hnone
  have hget : amGetState (ensureStateExists s tgid) tgid = emptyAnnotState tgid := by
    unfold amGetState
    rw [hens]
    rfl
  have hsome : (List.lookup tgid (ensureStateExists s tgid)).isSome = true := by
    rw [hens]
    rfl
  refine ⟨hens, ?_, ?_, ?_, ?_, ?_, ?_, ?_⟩
  · simp only [getSelectedAnnots, hget]
    rfl
  · intro engineArr
    rfl
  · simp only [getAnnotGroup, hget]
    rfl
  · simp only [getAnnotGroups, hget]
    rfl
  · simp only [getAnnotMetadata, hget]
    rfl
  · simp only [selectAnnot, hget]
    exact lookup_amSetState_of_some _ tgid _ hsome
  · simp only [lockAnnot, hget]
    rw [lookup_amSetState_of_some _ tgid _ hsome]
    rfl

/-- C10 witness: the fresh manager state with a concrete tool group, with
the engine selection instantiated at a concrete array. -/
theorem annot_manager_uninitialized_safe_witness :
    List.lookup "tg" (ensureStateExists [] "tg") = some (emptyAnnotState "tg") ∧
    (getSelectedAnnots none [] "tg").2 = [] ∧
    (getSelectedAnnots (some ["eng"]) [] "tg").2 = ["eng"] ∧
    (getAnnotGroup [] "tg" "g").2 = [] ∧
    (getAnnotGroups [] "tg").2 = [] ∧
    (getAnnotMetadata [] "tg" "u").2 = none ∧
    List.lookup "tg" (selectAnnot [] "tg" "u")
      = some { emptyAnnotState "tg" with selected := ["u"] } ∧
    (List.lookup "tg" (lockAnnot [] "tg" "u")).isSome = true := by
  have h := annot_manager_uninitialized_safe [] "tg" "g" "u" rfl
  exact ⟨h.1, h.2.1, h.2.2.1 ["eng"], h.2.2.2.1, h.2.2.2.2.1, h.2.2.2.2.2.1,
    h.2.2.2.2.2.2.1, h.2.2.2.2.2.2.2⟩
